import Mathlib

/-!
Verification of the Airtable-clone repository: a shallow embedding of the
client-side optimistic state reconciliation engine
(src/app/table/[tableId]/tableView.tsx) and of the server routers
(src/server/api/routers/table.ts), together with theorems settling the
frozen claims about the natural-language specification.

JS objects used as string-keyed maps are embedded as association lists
with unique keys; property read, spread-update and delete are mirrored by
lookupA, setA and removeA.  JS Date.now timestamps and integer positions
are embedded as Int.
-/

namespace Airtable

/-- Whitespace characters removed by the JS String.prototype.trim
(the subset relevant to the stored cell values). -/
def isJsSpace (c : Char) : Bool :=
  c = ' ' || c = '\t' || c = '\n' || c = '\r' || c = '\x0b' || c = '\x0c'

/-- Trim from both ends, as JS value.trim() does. -/
def trimChars (cs : List Char) : List Char :=
  ((cs.dropWhile isJsSpace).reverse.dropWhile isJsSpace).reverse

/-- Embedding of the JS value.trim() used throughout tableView.tsx. -/
def jsTrim (s : String) : String :=
  String.mk (trimChars s.data)

/-- Association-list read: JS object property access obj[k]. -/
def lookupA {β : Type} : List (String × β) → String → Option β
  | [], _ => none
  | p :: tl, k => if p.1 = k then some p.2 else lookupA tl k

/-- Association-list upsert: the JS object spread update, replacing the
value in place when the key exists and appending otherwise. -/
def setA {β : Type} : List (String × β) → String → β → List (String × β)
  | [], k, v => [(k, v)]
  | p :: tl, k, v => if p.1 = k then (k, v) :: tl else p :: setA tl k v

/-- Association-list delete: the JS rest-destructuring removal of a key. -/
def removeA {β : Type} (l : List (String × β)) (k : String) : List (String × β) :=
  l.filter (fun p => decide (p.1 ≠ k))

/-- Read of a nested map obj[r]?.[c]. -/
def lookup2 {β : Type} (m : List (String × List (String × β))) (r c : String) : Option β :=
  (lookupA m r).bind (fun inner => lookupA inner c)

/-- Nested upsert, mirroring the spread pattern
set(prev, r, set(prev[r] or empty, c, v)) used by the handlers. -/
def setA2 {β : Type} (m : List (String × List (String × β))) (r c : String) (v : β) :
    List (String × List (String × β)) :=
  setA m r (setA ((lookupA m r).getD []) c v)

/-- Nested delete mirroring the onSuccess / onError ledger-clear blocks of
updateCellMutation: delete the column entry of the row map when the row map
exists, and drop the row map entirely when it becomes empty. -/
def removeEntry2 {β : Type} (m : List (String × List (String × β))) (r c : String) :
    List (String × List (String × β)) :=
  match lookupA m r with
  | none => m
  | some inner =>
    let inner2 := removeA inner c
    if inner2.isEmpty then removeA m r else setA m r inner2

/-- Column type enum of the Prisma schema. -/
inductive ColumnType where
  | TEXT
  | NUMBER
deriving DecidableEq, Repr

/-- A column record as the client sees it. -/
structure Column where
  id : String
  name : String
  type : ColumnType
  position : Int
  tableId : String
deriving DecidableEq, Repr

/-- A cell record (column include flattened to columnId). -/
structure Cell where
  id : String
  rowId : String
  columnId : String
  value : String
deriving DecidableEq, Repr

/-- A row with its included cells (RowWithCells in interface.ts). -/
structure RowWithCells where
  id : String
  tableId : String
  position : Int
  cells : List Cell
deriving DecidableEq, Repr

/-- A pending-write ledger entry: pendingChanges[rowId][columnId]. -/
structure PendingEntry where
  value : String
  timestamp : Int
deriving DecidableEq, Repr

/-- A cell write dispatched to the server (the argument of
updateCellMutation.mutate / batchUpdateCells.mutateAsync). -/
structure CellWrite where
  rowId : String
  columnId : String
  value : String
deriving DecidableEq, Repr

/-- The local reconciliation state of the TableView component: the
speculative row registry (tempCellValues, tempToRealMapping), the pending
write ledger (pendingChanges), the inactivity clock (lastLocalChange) and
the per-cell validation errors. -/
structure ClientState where
  tempCellValues : List (String × List (String × String))
  pendingChanges : List (String × List (String × PendingEntry))
  tempToRealMapping : List (String × String)
  lastLocalChange : Int
  validationErrors : List (String × String)
deriving DecidableEq, Repr

/-! ### Number validation (tableView.tsx validateNumber, lines 192-206)

The regex is /^-?(\d+\.?\d*|\.\d+)([eE][+-]?\d+)?$/ applied to the trimmed
value.  The regex is deterministic (maximal digit runs never need
backtracking, since the tokens that follow a digit run cannot start with a
digit), so it is embedded as a straight-line matcher. -/

/-- Match the optional exponent tail: empty, or e/E, optional sign,
one or more digits. -/
def matchExpPart : List Char → Bool
  | [] => true
  | c :: rest =>
    if c = 'e' || c = 'E' then
      match rest with
      | '+' :: ds => !ds.isEmpty && ds.all Char.isDigit
      | '-' :: ds => !ds.isEmpty && ds.all Char.isDigit
      | ds => !ds.isEmpty && ds.all Char.isDigit
    else false

/-- Match the mantissa alternatives followed by the exponent part. -/
def matchMantissaExp (cs : List Char) : Bool :=
  let d1 := cs.takeWhile Char.isDigit
  let r1 := cs.dropWhile Char.isDigit
  if d1.isEmpty then
    match r1 with
    | '.' :: r2 =>
      let d2 := r2.takeWhile Char.isDigit
      let r3 := r2.dropWhile Char.isDigit
      !d2.isEmpty && matchExpPart r3
    | _ => false
  else
    match r1 with
    | '.' :: r2 => matchExpPart (r2.dropWhile Char.isDigit)
    | _ => matchExpPart r1

/-- The full anchored regex with the optional leading minus. -/
def matchJsNumber : List Char → Bool
  | '-' :: rest => matchMantissaExp rest
  | cs => matchMantissaExp cs

/-- validateNumber from tableView.tsx: empty trimmed values are allowed,
otherwise the trimmed value must match the decimal grammar. -/
def validateNumber (value : String) : Bool :=
  if jsTrim value = "" then true
  else matchJsNumber (jsTrim value).data

/-- getValidationError from tableView.tsx: a NUMBER column with a
non-empty trimmed value failing validateNumber yields the cell-scoped
validation message. -/
def getValidationError (value : String) (columnType : ColumnType) : Option String :=
  if columnType = ColumnType.NUMBER ∧ jsTrim value ≠ "" ∧ validateNumber value = false then
    some "Please enter a valid number"
  else none

/-- True when s starts with the given literal, as JS rowId.startsWith. -/
def strStartsWith (s p : String) : Bool :=
  decide (s.data.take p.data.length = p.data)

/-! ### Mutation coordinator (tableView.tsx handleCellUpdate and the
updateCellMutation / createRowMutation callbacks) -/

/-- The linkedTempRow context computed by updateCellMutation.onMutate:
the first temp id whose confirmed mapping targets rowId. -/
def updateCellContext (st : ClientState) (rowId : String) : Option String :=
  (st.tempToRealMapping.find? (fun q => decide (q.2 = rowId))).map Prod.fst

/-- handleCellUpdate (tableView.tsx lines 552-615) as a pure function:
returns the updated local state and the list of cell writes dispatched to
the server (empty or a single write). -/
def handleCellUpdate (columns : List Column) (st : ClientState)
    (rowId columnId value : String) (now : Int) : ClientState × List CellWrite :=
  let st0 := { st with lastLocalChange := now }
  match columns.find? (fun c => decide (c.id = columnId)) with
  | none => (st0, [])
  | some column =>
    let cellKey := rowId ++ "-" ++ columnId
    match getValidationError value column.type with
    | some err => ({ st0 with validationErrors := setA st0.validationErrors cellKey err }, [])
    | none =>
      let st1 := { st0 with validationErrors := removeA st0.validationErrors cellKey }
      if strStartsWith rowId "temp-row-" then
        let st2 := { st1 with tempCellValues := setA2 st1.tempCellValues rowId columnId value }
        match lookupA st2.tempToRealMapping rowId with
        | some realRowId =>
          if realRowId ≠ "" ∧ jsTrim value ≠ "" then
            (st2, [⟨realRowId, columnId, value⟩])
          else (st2, [])
        | none => (st2, [])
      else
        let st2 := { st1 with
          pendingChanges := setA2 st1.pendingChanges rowId columnId ⟨value, now⟩ }
        (st2, [⟨rowId, columnId, value⟩])

/-- updateCellMutation.onSuccess (tableView.tsx lines 490-505): when the
dispatch targeted a linked temp row nothing happens; otherwise the pending
ledger entry of the (rowId, columnId) pair of the completed request is
deleted, keyed only by the pair and not by operation identity. -/
def updateCellOnSuccess (st : ClientState) (rowId columnId : String)
    (linkedTempRow : Option String) : ClientState :=
  match linkedTempRow with
  | some _ => st
  | none => { st with pendingChanges := removeEntry2 st.pendingChanges rowId columnId }

/-- The value flush run by createRowMutation.onSuccess (saveTempValues,
tableView.tsx lines 654-673): every accumulated temp value whose trim is
non-empty is dispatched against the real row id, in map order. -/
def createRowFlushWrites (st : ClientState) (tempRowId realRowId : String) : List CellWrite :=
  match lookupA st.tempCellValues tempRowId with
  | none => []
  | some vals =>
    vals.filterMap (fun p =>
      if jsTrim p.2 ≠ "" then some ⟨realRowId, p.1, p.2⟩ else none)

/-- createRowMutation.onSuccess: records the temp-to-real mapping and
flushes the accumulated temp values. -/
def createRowOnSuccess (st : ClientState) (tempRowId realRowId : String) :
    ClientState × List CellWrite :=
  ({ st with tempToRealMapping := setA st.tempToRealMapping tempRowId realRowId },
   createRowFlushWrites st tempRowId realRowId)

/-! ### Staleness reaper (tableView.tsx autoFinalize interval,
lines 209-257), as a pure function of the state and the current time -/

/-- The registry sweep: when no local edit happened within the 30000 ms
threshold, every mapping entry is removed and every mapped temp id loses
its value-map entry. -/
def reapRegistry (st : ClientState) (now : Int) : ClientState :=
  if 30000 < now - st.lastLocalChange then
    { st with
      tempCellValues :=
        st.tempCellValues.filter (fun p => (lookupA st.tempToRealMapping p.1).isNone),
      tempToRealMapping := [] }
  else st

/-- The ledger sweep, run on every tick: entries older than 30000 ms are
deleted and row maps left empty are dropped. -/
def reapLedger (st : ClientState) (now : Int) : ClientState :=
  let cleaned :=
    st.pendingChanges.map
      (fun p => (p.1, p.2.filter (fun q => decide (now - q.2.timestamp ≤ 30000))))
  { st with pendingChanges := cleaned.filter (fun p => decide (p.2 ≠ [])) }

/-- One tick of the autoFinalize interval. -/
def reapTick (st : ClientState) (now : Int) : ClientState :=
  reapLedger (reapRegistry st now) now

/-! ### View materializer (tableView.tsx smartDataSelect, lines 308-377) -/

/-- The filter of confirmed server rows: a row is dropped when the first
mapping entry targeting its id belongs to a temp id that still has a live
tempCellValues entry. -/
def keepServerRow (mapping : List (String × String))
    (tcv : List (String × List (String × String))) (row : RowWithCells) : Bool :=
  match mapping.find? (fun q => decide (q.2 = row.id)) with
  | some q => (lookupA tcv q.1).isNone
  | none => true

/-- The ledger override of a single cell. -/
def overridePendingCell (rpc : List (String × PendingEntry)) (cell : Cell) : Cell :=
  match lookupA rpc cell.columnId with
  | some pc => { cell with value := pc.value }
  | none => cell

/-- The ledger override of a confirmed row: substitute every cell value
that has a pending entry for (rowId, columnId). -/
def applyPendingRow (pending : List (String × List (String × PendingEntry)))
    (row : RowWithCells) : RowWithCells :=
  match lookupA pending row.id with
  | none => row
  | some rpc => { row with cells := row.cells.map (overridePendingCell rpc) }

/-- A cell of a mapped temp row, cloned from the confirmed row but keyed
to the temp identity, with the value taken from the temp value map
(falling back to the empty string). -/
def cloneCellFromReal (tcv : List (String × List (String × String)))
    (tempRowId : String) (cell : Cell) : Cell :=
  { cell with
    id := "temp-cell-" ++ tempRowId ++ "-" ++ cell.columnId,
    rowId := tempRowId,
    value := ((lookupA tcv tempRowId).bind (fun vals => lookupA vals cell.columnId)).getD "" }

/-- A synthesized cell of an unmapped temp row against a column. -/
def syntheticCell (tcv : List (String × List (String × String)))
    (tempRowId : String) (col : Column) : Cell :=
  { id := "temp-cell-" ++ tempRowId ++ "-" ++ col.id,
    rowId := tempRowId,
    columnId := col.id,
    value := ((lookupA tcv tempRowId).bind (fun vals => lookupA vals col.id)).getD "" }

/-- The fully synthesized temp row with the hardcoded position 999. -/
def syntheticTempRow (tcv : List (String × List (String × String)))
    (tableId : String) (columns : List Column) (tempRowId : String) : RowWithCells :=
  { id := tempRowId,
    tableId := tableId,
    position := 999,
    cells := columns.map (syntheticCell tcv tempRowId) }

/-- The materialized row of a temp id: a clone of the confirmed row when
the id is mapped and the real row is in the server data, a fully
synthesized row otherwise. -/
def tempRowOf (serverData : List RowWithCells)
    (tcv : List (String × List (String × String)))
    (mapping : List (String × String)) (tableId : String) (columns : List Column)
    (tempRowId : String) : RowWithCells :=
  match lookupA mapping tempRowId with
  | some realRowId =>
    match serverData.find? (fun r => decide (r.id = realRowId)) with
    | some realRow =>
      { realRow with id := tempRowId, cells := realRow.cells.map (cloneCellFromReal tcv tempRowId) }
    | none => syntheticTempRow tcv tableId columns tempRowId
  | none => syntheticTempRow tcv tableId columns tempRowId

/-- The ascending-position comparison of the final sort. -/
def rowLE (a b : RowWithCells) : Prop := a.position ≤ b.position

instance : DecidableRel rowLE := fun a b => inferInstanceAs (Decidable (a.position ≤ b.position))

instance : IsTotal RowWithCells rowLE := ⟨fun a b => Int.le_total a.position b.position⟩

instance : IsTrans RowWithCells rowLE := ⟨fun _ _ _ h1 h2 => le_trans h1 h2⟩

/-- The filtered confirmed rows (step 1 of smartDataSelect). -/
def filteredServer (serverData : List RowWithCells) (mapping : List (String × String))
    (tcv : List (String × List (String × String))) : List RowWithCells :=
  serverData.filter (keepServerRow mapping tcv)

/-- The materialized temp rows (step 2 of smartDataSelect), one per key of
the temp value map. -/
def tempRowsOf (serverData : List RowWithCells)
    (tcv : List (String × List (String × String)))
    (mapping : List (String × String)) (tableId : String) (columns : List Column) :
    List RowWithCells :=
  (tcv.map Prod.fst).map (tempRowOf serverData tcv mapping tableId columns)

/-- The ledger-merged confirmed rows (step 3 of smartDataSelect). -/
def mergedServer (serverData : List RowWithCells) (mapping : List (String × String))
    (tcv : List (String × List (String × String)))
    (pending : List (String × List (String × PendingEntry))) : List RowWithCells :=
  (filteredServer serverData mapping tcv).map (applyPendingRow pending)

/-- smartDataSelect (tableView.tsx lines 308-377): filter the confirmed
rows still owned by a temp identity, materialize the temp rows, apply the
ledger overrides, concatenate and sort ascending by position (a stable
sort, as the JS Array.prototype.sort). -/
def smartDataSelect (serverData : List RowWithCells)
    (tcv : List (String × List (String × String)))
    (pending : List (String × List (String × PendingEntry)))
    (mapping : List (String × String)) (tableId : String) (columns : List Column) :
    List RowWithCells :=
  List.insertionSort rowLE
    (mergedServer serverData mapping tcv pending ++ tempRowsOf serverData tcv mapping tableId columns)

/-! ### Paginated row reads (table.ts rowRouter.getByTableIdInfinite,
lines 173-220) -/

/-- A stored row as the pagination query sees it (the included cells are
irrelevant to the pagination logic). -/
structure DbRow where
  id : String
  position : Int
deriving DecidableEq, Repr

/-- The result shape of getByTableIdInfinite. -/
structure PageResult where
  items : List DbRow
  nextCursor : Option String
deriving DecidableEq, Repr

/-- Ascending-position order of the findMany orderBy clause. -/
def dbRowLE (a b : DbRow) : Prop := a.position ≤ b.position

instance : DecidableRel dbRowLE := fun a b => inferInstanceAs (Decidable (a.position ≤ b.position))

instance : IsTotal DbRow dbRowLE := ⟨fun a b => Int.le_total a.position b.position⟩

instance : IsTrans DbRow dbRowLE := ⟨fun _ _ _ h1 h2 => le_trans h1 h2⟩

/-- Lexicographic strict order on character lists: the Prisma gt
comparison of the id text columns. -/
def charListLt : List Char → List Char → Bool
  | [], [] => false
  | [], _ :: _ => true
  | _ :: _, [] => false
  | a :: as, b :: bs =>
    if a.val < b.val then true else if b.val < a.val then false else charListLt as bs

/-- Lexicographic strict order on strings. -/
def strLt (a b : String) : Bool := charListLt a.data b.data

/-- getByTableIdInfinite: filter the stored rows by id strictly greater
than the cursor (the Prisma gt filter, lexicographic on the id text),
order by position ascending, take limit + 1 rows; when more than limit
rows came back, pop the extra row and use the popped id as nextCursor. -/
def listRowsPage (rows : List DbRow) (limit : Nat) (cursor : Option String) : PageResult :=
  let filtered :=
    match cursor with
    | some c => rows.filter (fun r => strLt c r.id)
    | none => rows
  let taken := (List.insertionSort dbRowLE filtered).take (limit + 1)
  if limit < taken.length then
    { items := taken.dropLast, nextCursor := taken.getLast?.map (fun r => r.id) }
  else
    { items := taken, nextCursor := none }

/-! ### Column creation and deletion (table.ts columnRouter, lines
101-168), reduced to the id/position bookkeeping the claims are about -/

/-- A column create or delete request against one table. -/
inductive ColOp where
  | create (id : String)
  | del (id : String)
deriving DecidableEq, Repr

/-- The position assigned by columnRouter.create: the position of the
findFirst orderBy position desc column (the maximum live position, -1 when
the table has no column) plus one. -/
def nextColumnPosition (cols : List (String × Int)) : Int :=
  (cols.map Prod.snd).foldl max (-1) + 1

/-- One router call: create appends the new column at nextColumnPosition,
delete removes the column with the given id. -/
def applyColOp (cols : List (String × Int)) : ColOp → List (String × Int)
  | ColOp.create id => cols ++ [(id, nextColumnPosition cols)]
  | ColOp.del id => cols.filter (fun p => decide (p.1 ≠ id))

/-- A sequence of column create/delete calls starting from an empty table. -/
def applyColOps (ops : List ColOp) : List (String × Int) :=
  ops.foldl applyColOp []

/-! ### Table creation (src/unnamed/part_001 tableRouter.create, lines
12-118): one transaction provisioning the default three-column,
three-row skeleton.  The faker-generated cell contents and the
database-generated cuid identifiers are abstracted as oracle
parameters; everything structural is taken from the source. -/

/-- The bare table record. -/
structure TableRec where
  id : String
  name : String
  baseId : String
deriving DecidableEq, Repr

/-- The shape returned by the provisioning tableRouter.create. -/
structure TableWithData where
  table : TableRec
  columns : List Column
  rows : List RowWithCells
deriving DecidableEq, Repr

/-- The cells of one default row: one cell per created column, in column
position order, with the faker value abstracted by the oracle. -/
def defaultRowCells (rowId : String) (cols : List Column) (rowIdx : Nat)
    (fake : Nat → Nat → String) : List Cell :=
  cols.enum.map (fun p =>
    { id := "cell-" ++ toString rowIdx ++ "-" ++ toString p.1,
      rowId := rowId,
      columnId := p.2.id,
      value := fake rowIdx p.1 })

/-- tableRouter.create of the provisioning variant: creates the table,
the columns Name:TEXT, Age:NUMBER, Email:TEXT at positions 0, 1, 2, the
rows at positions 0, 1, 2, and one cell per (row, column) pair, all in one
transaction.  newTableId, colIds and rowIds abstract the cuid generator
and fake the faker-generated cell contents. -/
def tableRouterCreate (name baseId newTableId : String)
    (colIds rowIds : Nat → String) (fake : Nat → Nat → String) : TableWithData :=
  let cols : List Column :=
    [{ id := colIds 0, name := "Name", type := ColumnType.TEXT, position := 0, tableId := newTableId },
     { id := colIds 1, name := "Age", type := ColumnType.NUMBER, position := 1, tableId := newTableId },
     { id := colIds 2, name := "Email", type := ColumnType.TEXT, position := 2, tableId := newTableId }]
  let rows : List RowWithCells :=
    (List.range 3).map (fun i =>
      { id := rowIds i,
        tableId := newTableId,
        position := (i : Int),
        cells := defaultRowCells (rowIds i) cols i fake })
  { table := { id := newTableId, name := name, baseId := baseId },
    columns := cols,
    rows := rows }

/-! ### Helper lemmas -/

theorem lookupA_setA_same {β : Type} (l : List (String × β)) (k : String) (v : β) :
    lookupA (setA l k v) k = some v := by
  induction l with
  | nil => simp [setA, lookupA]
  | cons p tl ih =>
    by_cases h : p.1 = k
    · simp [setA, h, lookupA]
    · simp [setA, h, lookupA, ih]

theorem lookupA_removeA_same {β : Type} (l : List (String × β)) (k : String) :
    lookupA (removeA l k) k = none := by
  induction l with
  | nil => simp [removeA, lookupA]
  | cons p tl ih =>
    by_cases h : p.1 = k
    · simpa [removeA, h] using ih
    · simpa [removeA, h, lookupA] using ih

theorem lookup2_setA2_same {β : Type} (m : List (String × List (String × β)))
    (r c : String) (v : β) : lookup2 (setA2 m r c v) r c = some v := by
  unfold lookup2 setA2
  rw [lookupA_setA_same]
  simp [lookupA_setA_same]

theorem lookup2_removeEntry2_same {β : Type} (m : List (String × List (String × β)))
    (r c : String) : lookup2 (removeEntry2 m r c) r c = none := by
  unfold removeEntry2
  cases h : lookupA m r with
  | none => simp [lookup2, h]
  | some inner =>
    simp only
    by_cases he : (removeA inner c).isEmpty
    · simp [he, lookup2, lookupA_removeA_same]
    · simp [he, lookup2, lookupA_setA_same, lookupA_removeA_same]

theorem lookupA_mem_keys {β : Type} (l : List (String × β)) (k : String) (v : β)
    (h : lookupA l k = some v) : k ∈ l.map Prod.fst := by
  induction l with
  | nil => simp [lookupA] at h
  | cons p tl ih =>
    by_cases hp : p.1 = k
    · simp [hp]
    · simp [lookupA, hp] at h
      simpa using Or.inr (ih h)

theorem lookupA_mem {β : Type} (l : List (String × β)) (k : String) (v : β)
    (h : lookupA l k = some v) : (k, v) ∈ l := by
  induction l with
  | nil => simp [lookupA] at h
  | cons p tl ih =>
    by_cases hp : p.1 = k
    · simp only [lookupA, if_pos hp, Option.some.injEq] at h
      have hpkv : p = (k, v) := by
        obtain ⟨p1, p2⟩ := p
        simp only at hp h
        simp [hp, h]
      rw [← hpkv]
      exact List.mem_cons_self _ _
    · simp only [lookupA, if_neg hp] at h
      exact List.mem_cons_of_mem _ (ih h)

theorem lookupA_filter_eq_none {β : Type} (l : List (String × β))
    (p : String × β → Bool) (k : String)
    (h : ∀ q ∈ l, q.1 = k → p q = false) :
    lookupA (l.filter p) k = none := by
  induction l with
  | nil => simp [lookupA]
  | cons q tl ih =>
    by_cases hq : p q
    · have hk : ¬ q.1 = k := by
        intro hk
        have := h q (by simp) hk
        simp [hq] at this
      rw [List.filter_cons_of_pos hq]
      simp only [lookupA, if_neg hk]
      exact ih (fun q hqm => h q (List.mem_cons_of_mem _ hqm))
    · rw [List.filter_cons_of_neg hq]
      exact ih (fun q hqm => h q (List.mem_cons_of_mem _ hqm))

theorem countP_eq_one_of_nodup_mem (l : List String) (a : String)
    (h1 : l.Nodup) (h2 : a ∈ l) :
    l.countP (fun x => decide (x = a)) = 1 := by
  induction l with
  | nil => simp at h2
  | cons b tl ih =>
    rcases List.mem_cons.mp h2 with hb | htl
    · rw [List.countP_cons_of_pos _ _ (by simp [hb])]
      have hz : tl.countP (fun x => decide (x = a)) = 0 := by
        rw [List.countP_eq_zero]
        intro x hx
        simp only [decide_eq_true_eq]
        intro hxa
        exact (List.nodup_cons.mp h1).1 (hb ▸ (hxa ▸ hx))
      omega
    · have hba : ¬ b = a := by
        intro hba
        exact (List.nodup_cons.mp h1).1 (hba ▸ htl)
      rw [List.countP_cons_of_neg _ _ (by simpa using hba)]
      exact ih (List.nodup_cons.mp h1).2 htl

theorem applyPendingRow_id (pending : List (String × List (String × PendingEntry)))
    (row : RowWithCells) : (applyPendingRow pending row).id = row.id := by
  unfold applyPendingRow
  cases lookupA pending row.id <;> simp

theorem applyPendingRow_position (pending : List (String × List (String × PendingEntry)))
    (row : RowWithCells) : (applyPendingRow pending row).position = row.position := by
  unfold applyPendingRow
  cases lookupA pending row.id <;> simp

theorem tempRowOf_id (serverData : List RowWithCells)
    (tcv : List (String × List (String × String)))
    (mapping : List (String × String)) (tableId : String) (columns : List Column)
    (k : String) : (tempRowOf serverData tcv mapping tableId columns k).id = k := by
  unfold tempRowOf
  cases lookupA mapping k with
  | none => simp [syntheticTempRow]
  | some rid =>
    simp only
    cases serverData.find? (fun r => decide (r.id = rid)) <;> simp [syntheticTempRow]

theorem smartDataSelect_perm (serverData : List RowWithCells)
    (tcv : List (String × List (String × String)))
    (pending : List (String × List (String × PendingEntry)))
    (mapping : List (String × String)) (tableId : String) (columns : List Column) :
    (smartDataSelect serverData tcv pending mapping tableId columns).Perm
      (mergedServer serverData mapping tcv pending ++
        tempRowsOf serverData tcv mapping tableId columns) :=
  List.perm_insertionSort rowLE _

theorem smartDataSelect_sorted (serverData : List RowWithCells)
    (tcv : List (String × List (String × String)))
    (pending : List (String × List (String × PendingEntry)))
    (mapping : List (String × String)) (tableId : String) (columns : List Column) :
    (smartDataSelect serverData tcv pending mapping tableId columns).Sorted rowLE :=
  List.sorted_insertionSort rowLE _

/-! ### Concrete fixtures used by counterexamples and witnesses -/

/-- A TEXT column of the demo table. -/
def demoColumn : Column :=
  { id := "c1", name := "Name", type := ColumnType.TEXT, position := 0, tableId := "t1" }

/-- A NUMBER column of the demo table. -/
def demoNumberColumn : Column :=
  { id := "n1", name := "Age", type := ColumnType.NUMBER, position := 1, tableId := "t1" }

/-- The pristine client state: no speculative rows, no pending writes. -/
def demoState0 : ClientState :=
  { tempCellValues := [], pendingChanges := [], tempToRealMapping := [],
    lastLocalChange := 0, validationErrors := [] }

/-- A state with one mapped temp row and one pending ledger entry written
at time 0, as left behind by an edit session. -/
def demoReapState : ClientState :=
  { tempCellValues := [("temp-row-1", [("c1", "X")])],
    pendingChanges := [("r1", [("c1", { value := "B", timestamp := 0 })])],
    tempToRealMapping := [("temp-row-1", "R")],
    lastLocalChange := 0,
    validationErrors := [] }

/-- A state whose only temp row is unmapped — the state left behind by a
createRow request that failed (its onError merely logs, retaining the temp
row) or never resolved. -/
def demoUnmappedState : ClientState :=
  { tempCellValues := [("temp-row-1", [("c1", "X")])],
    pendingChanges := [],
    tempToRealMapping := [],
    lastLocalChange := 0,
    validationErrors := [] }

/-- A state with one mapped and one unmapped temp row plus a stale ledger
entry, swept by the amended claim C8 witness. -/
def demoMixedState : ClientState :=
  { tempCellValues := [("temp-row-1", [("c1", "X")]), ("temp-row-2", [("c1", "Z")])],
    pendingChanges := [("r1", [("c1", { value := "B", timestamp := 0 })])],
    tempToRealMapping := [("temp-row-1", "R")],
    lastLocalChange := 0,
    validationErrors := [] }

/-- A confirmed server row r1 whose only cell holds the value old. -/
def demoServerRow : RowWithCells :=
  { id := "r1", tableId := "t1", position := 0,
    cells := [{ id := "cellA", rowId := "r1", columnId := "c1", value := "old" }] }

/-- A confirmed server row r1 whose only cell holds the value A. -/
def demoRowA : RowWithCells :=
  { id := "r1", tableId := "t1", position := 0,
    cells := [{ id := "cellA", rowId := "r1", columnId := "c1", value := "A" }] }

/-! ### Behavior of a confirmed-row cell update -/

/-- A cell update of a confirmed (non temp) row that passes validation:
the ledger records the value under (rowId, columnId) and exactly one write
is dispatched. -/
theorem handleCellUpdate_confirmed (cols : List Column) (st : ClientState)
    (rowId columnId value : String) (now : Int) (col : Column)
    (hcol : cols.find? (fun c => decide (c.id = columnId)) = some col)
    (hval : getValidationError value col.type = none)
    (htemp : strStartsWith rowId "temp-row-" = false) :
    handleCellUpdate cols st rowId columnId value now =
      ({ st with
          lastLocalChange := now,
          validationErrors := removeA st.validationErrors (rowId ++ "-" ++ columnId),
          pendingChanges := setA2 st.pendingChanges rowId columnId ⟨value, now⟩ },
       [⟨rowId, columnId, value⟩]) := by
  unfold handleCellUpdate
  rw [hcol]
  simp only [hval, htemp, Bool.false_eq_true, if_false]

/-- A cell update of a temp row with a blank value: the value is stored
locally in the temp value map and no write is dispatched. -/
theorem handleCellUpdate_temp_blank (cols : List Column) (st : ClientState)
    (rowId columnId value : String) (now : Int) (col : Column)
    (hcol : cols.find? (fun c => decide (c.id = columnId)) = some col)
    (hval : getValidationError value col.type = none)
    (htemp : strStartsWith rowId "temp-row-" = true)
    (hblank : jsTrim value = "") :
    (handleCellUpdate cols st rowId columnId value now).2 = [] ∧
    lookup2 (handleCellUpdate cols st rowId columnId value now).1.tempCellValues
      rowId columnId = some value := by
  unfold handleCellUpdate
  rw [hcol]
  simp only [hval, htemp, if_true]
  cases hm : lookupA st.tempToRealMapping rowId with
  | none => simp [hm, lookup2_setA2_same]
  | some realRowId =>
    simp only [hm]
    have : ¬ (realRowId ≠ "" ∧ jsTrim value ≠ "") := by
      intro hc
      exact hc.2 hblank
    simp [this, lookup2_setA2_same]

/-! ### Claim C1 -/

/-- Claim C1 counterexample: the user sets cell (r1, c1) of a confirmed
row to foo and then to bar before the first request resolves.  When the
success of the first (earlier-dispatched) request arrives, the
updateCellMutation.onSuccess clear is keyed only by (rowId, columnId), so
it deletes the ledger entry holding bar; after both completions the ledger
has no entry for the cell and the materialized view shows the stale server
value old rather than bar, refuting the claim that the final
ledger/materialized value is bar for every completion order. -/
theorem C1_counterexample :
    (lookup2
      (updateCellOnSuccess
        (updateCellOnSuccess
          (handleCellUpdate [demoColumn]
            (handleCellUpdate [demoColumn] demoState0 "r1" "c1" "foo" 100).1
            "r1" "c1" "bar" 200).1
          "r1" "c1"
          (updateCellContext (handleCellUpdate [demoColumn] demoState0 "r1" "c1" "foo" 100).1 "r1"))
        "r1" "c1"
        (updateCellContext
          (handleCellUpdate [demoColumn]
            (handleCellUpdate [demoColumn] demoState0 "r1" "c1" "foo" 100).1
            "r1" "c1" "bar" 200).1 "r1")).pendingChanges
      "r1" "c1" = none) ∧
    (smartDataSelect [demoServerRow]
      (updateCellOnSuccess
        (updateCellOnSuccess
          (handleCellUpdate [demoColumn]
            (handleCellUpdate [demoColumn] demoState0 "r1" "c1" "foo" 100).1
            "r1" "c1" "bar" 200).1
          "r1" "c1"
          (updateCellContext (handleCellUpdate [demoColumn] demoState0 "r1" "c1" "foo" 100).1 "r1"))
        "r1" "c1"
        (updateCellContext
          (handleCellUpdate [demoColumn]
            (handleCellUpdate [demoColumn] demoState0 "r1" "c1" "foo" 100).1
            "r1" "c1" "bar" 200).1 "r1")).tempCellValues
      (updateCellOnSuccess
        (updateCellOnSuccess
          (handleCellUpdate [demoColumn]
            (handleCellUpdate [demoColumn] demoState0 "r1" "c1" "foo" 100).1
            "r1" "c1" "bar" 200).1
          "r1" "c1"
          (updateCellContext (handleCellUpdate [demoColumn] demoState0 "r1" "c1" "foo" 100).1 "r1"))
        "r1" "c1"
        (updateCellContext
          (handleCellUpdate [demoColumn]
            (handleCellUpdate [demoColumn] demoState0 "r1" "c1" "foo" 100).1
            "r1" "c1" "bar" 200).1 "r1")).pendingChanges
      (updateCellOnSuccess
        (updateCellOnSuccess
          (handleCellUpdate [demoColumn]
            (handleCellUpdate [demoColumn] demoState0 "r1" "c1" "foo" 100).1
            "r1" "c1" "bar" 200).1
          "r1" "c1"
          (updateCellContext (handleCellUpdate [demoColumn] demoState0 "r1" "c1" "foo" 100).1 "r1"))
        "r1" "c1"
        (updateCellContext
          (handleCellUpdate [demoColumn]
            (handleCellUpdate [demoColumn] demoState0 "r1" "c1" "foo" 100).1
            "r1" "c1" "bar" 200).1 "r1")).tempToRealMapping
      "t1" [demoColumn]).map (fun r => r.cells.map (fun c => c.value)) = [["old"]] := by
  decide

/-- Claim C1 amended: the second edit replaces the first in the pending
ledger (after both dispatches the ledger holds the later value), and each
edit dispatches exactly one write in order; but the success clear is
keyed off the (rowId, columnId) pair, not the operation identity, so any
success completion for the cell with no linked temp row — in particular
the earlier-dispatched one — unconditionally deletes the pending entry of
the later dispatch. -/
theorem C1_amended_ledger (cols : List Column) (st : ClientState)
    (rowId columnId v1 v2 : String) (t1 t2 : Int) (col : Column)
    (hcol : cols.find? (fun c => decide (c.id = columnId)) = some col)
    (hv1 : getValidationError v1 col.type = none)
    (hv2 : getValidationError v2 col.type = none)
    (htemp : strStartsWith rowId "temp-row-" = false) :
    (handleCellUpdate cols st rowId columnId v1 t1).2 = [⟨rowId, columnId, v1⟩] ∧
    (handleCellUpdate cols (handleCellUpdate cols st rowId columnId v1 t1).1
        rowId columnId v2 t2).2 = [⟨rowId, columnId, v2⟩] ∧
    lookup2 (handleCellUpdate cols (handleCellUpdate cols st rowId columnId v1 t1).1
        rowId columnId v2 t2).1.pendingChanges rowId columnId = some ⟨v2, t2⟩ ∧
    lookup2 (updateCellOnSuccess
        (handleCellUpdate cols (handleCellUpdate cols st rowId columnId v1 t1).1
          rowId columnId v2 t2).1
        rowId columnId none).pendingChanges rowId columnId = none := by
  rw [handleCellUpdate_confirmed cols st rowId columnId v1 t1 col hcol hv1 htemp]
  rw [handleCellUpdate_confirmed cols _ rowId columnId v2 t2 col hcol hv2 htemp]
  refine ⟨rfl, rfl, ?_, ?_⟩
  · exact lookup2_setA2_same _ rowId columnId _
  · exact lookup2_removeEntry2_same _ rowId columnId

/-- Witness of the amended claim C1 at the concrete double edit foo then
bar on the confirmed row r1. -/
theorem C1_amended_ledger_witness :
    (handleCellUpdate [demoColumn] demoState0 "r1" "c1" "foo" 100).2 =
      [⟨"r1", "c1", "foo"⟩] ∧
    (handleCellUpdate [demoColumn]
        (handleCellUpdate [demoColumn] demoState0 "r1" "c1" "foo" 100).1
        "r1" "c1" "bar" 200).2 = [⟨"r1", "c1", "bar"⟩] ∧
    lookup2 (handleCellUpdate [demoColumn]
        (handleCellUpdate [demoColumn] demoState0 "r1" "c1" "foo" 100).1
        "r1" "c1" "bar" 200).1.pendingChanges "r1" "c1" = some ⟨"bar", 200⟩ ∧
    lookup2 (updateCellOnSuccess
        (handleCellUpdate [demoColumn]
          (handleCellUpdate [demoColumn] demoState0 "r1" "c1" "foo" 100).1
          "r1" "c1" "bar" 200).1
        "r1" "c1" none).pendingChanges "r1" "c1" = none :=
  C1_amended_ledger [demoColumn] demoState0 "r1" "c1" "foo" "bar" 100 200 demoColumn
    (by decide) (by decide) (by decide) (by decide)

/-! ### Claim C5 -/

/-- Claim C5: for a NUMBER column the values 123, -45.67, 1.2e-3 and the
empty string pass validation and a confirmed-row update dispatches the
write; the values 12a, 1..2 and --5 fail validation, no write is
dispatched, and the cell-scoped validation message is recorded. -/
theorem C5_number_validation :
    validateNumber "123" = true ∧
    validateNumber "-45.67" = true ∧
    validateNumber "1.2e-3" = true ∧
    validateNumber "" = true ∧
    validateNumber "12a" = false ∧
    validateNumber "1..2" = false ∧
    validateNumber "--5" = false ∧
    (handleCellUpdate [demoNumberColumn] demoState0 "r1" "n1" "123" 100).2 =
      [⟨"r1", "n1", "123"⟩] ∧
    (handleCellUpdate [demoNumberColumn] demoState0 "r1" "n1" "-45.67" 100).2 =
      [⟨"r1", "n1", "-45.67"⟩] ∧
    (handleCellUpdate [demoNumberColumn] demoState0 "r1" "n1" "1.2e-3" 100).2 =
      [⟨"r1", "n1", "1.2e-3"⟩] ∧
    (handleCellUpdate [demoNumberColumn] demoState0 "r1" "n1" "" 100).2 =
      [⟨"r1", "n1", ""⟩] ∧
    (handleCellUpdate [demoNumberColumn] demoState0 "r1" "n1" "12a" 100).2 = [] ∧
    lookupA (handleCellUpdate [demoNumberColumn] demoState0 "r1" "n1" "12a" 100).1.validationErrors
      "r1-n1" = some "Please enter a valid number" ∧
    (handleCellUpdate [demoNumberColumn] demoState0 "r1" "n1" "1..2" 100).2 = [] ∧
    lookupA (handleCellUpdate [demoNumberColumn] demoState0 "r1" "n1" "1..2" 100).1.validationErrors
      "r1-n1" = some "Please enter a valid number" ∧
    (handleCellUpdate [demoNumberColumn] demoState0 "r1" "n1" "--5" 100).2 = [] ∧
    lookupA (handleCellUpdate [demoNumberColumn] demoState0 "r1" "n1" "--5" 100).1.validationErrors
      "r1-n1" = some "Please enter a valid number" ∧
    (handleCellUpdate [demoNumberColumn] demoState0 "r1" "n1" "12a" 100).1.pendingChanges = [] := by
  decide

/-! ### Claim C6 -/

theorem le_foldl_max (l : List Int) (a : Int) :
    a ≤ l.foldl max a ∧ ∀ x ∈ l, x ≤ l.foldl max a := by
  induction l generalizing a with
  | nil => simp
  | cons b tl ih =>
    refine ⟨le_trans (le_max_left a b) (ih (max a b)).1, ?_⟩
    intro x hx
    rcases List.mem_cons.mp hx with rfl | hxt
    · exact le_trans (le_max_right a x) (ih (max a x)).1
    · exact (ih (max a b)).2 x hxt

/-- Every live column position is strictly below the position the next
created column receives. -/
theorem mem_lt_nextColumnPosition (cols : List (String × Int)) (p : String × Int)
    (hp : p ∈ cols) : p.2 < nextColumnPosition cols := by
  have h2 : p.2 ∈ cols.map Prod.snd := List.mem_map_of_mem Prod.snd hp
  have := (le_foldl_max (cols.map Prod.snd) (-1)).2 p.2 h2
  unfold nextColumnPosition
  omega

theorem applyColOp_pairwise (cols : List (String × Int)) (op : ColOp)
    (h : cols.Pairwise (fun p q => p.2 ≠ q.2)) :
    (applyColOp cols op).Pairwise (fun p q => p.2 ≠ q.2) := by
  cases op with
  | del id => exact List.Pairwise.sublist (List.filter_sublist _) h
  | create id =>
    rw [applyColOp, List.pairwise_append]
    refine ⟨h, by simp, ?_⟩
    intro a ha b hb
    simp only [List.mem_singleton] at hb
    subst hb
    exact ne_of_lt (mem_lt_nextColumnPosition cols a ha)

theorem applyColOps_pairwise_aux (ops : List ColOp) (cols : List (String × Int))
    (h : cols.Pairwise (fun p q => p.2 ≠ q.2)) :
    (ops.foldl applyColOp cols).Pairwise (fun p q => p.2 ≠ q.2) := by
  induction ops generalizing cols with
  | nil => exact h
  | cons op tl ih => exact ih _ (applyColOp_pairwise cols op h)

/-- Claim C6 counterexample: create columns a and b (positions 0 and 1),
delete b, create c — columnRouter.create computes max(existing) + 1 over
the live columns only, so c receives position 1, the position previously
held by the deleted column b, refuting the never-reused clause. -/
theorem C6_counterexample :
    lookupA (applyColOps [ColOp.create "a", ColOp.create "b"]) "b" = some 1 ∧
    lookupA (applyColOps [ColOp.create "a", ColOp.create "b", ColOp.del "b", ColOp.create "c"])
      "c" = some 1 := by
  decide

/-- Claim C6 amended: column positions are unique per table and are
assigned on creation as max(existing) + 1 (0 for the first column, every
live position strictly below the next assigned one) — but a deleted
maximal position can be reused, since the assignment only consults the
live columns. -/
theorem C6_amended :
    (∀ ops : List ColOp, (applyColOps ops).Pairwise (fun p q => p.2 ≠ q.2)) ∧
    (∀ cols : List (String × Int), ∀ p ∈ cols, p.2 < nextColumnPosition cols) ∧
    nextColumnPosition [] = 0 :=
  ⟨fun ops => applyColOps_pairwise_aux ops [] List.Pairwise.nil,
   fun cols p hp => mem_lt_nextColumnPosition cols p hp,
   by decide⟩

/-- Witness of the amended claim C6 on a concrete table. -/
theorem C6_amended_witness :
    (applyColOps [ColOp.create "a", ColOp.create "b"]).Pairwise (fun p q => p.2 ≠ q.2) ∧
    ("a", (0 : Int)).2 < nextColumnPosition [("a", (0 : Int))] :=
  ⟨C6_amended.1 [ColOp.create "a", ColOp.create "b"],
   C6_amended.2.1 [("a", (0 : Int))] ("a", (0 : Int)) (by decide)⟩

/-! ### Claim C4 -/

/-- Two-digit decimal suffix so that id order agrees with position order,
as with the monotone cuids the database generates in creation order. -/
def padNum (n : Nat) : String :=
  if n < 10 then "0" ++ toString n else toString n

/-- A table of exactly 51 rows: ids id01 .. id51, positions 0 .. 50. -/
def sampleRows : List DbRow :=
  (List.range 51).map (fun n => { id := "id" ++ padNum (n + 1), position := (n : Int) })

/-- Claim C4, evaluated on the 51-row table with limit 50: the first page
returns 50 items ending at id50, but nextCursor is id51 — the id of the
popped extra row, which is the 51st row and was never returned — not the
50th returned id as the claim states; and the follow-up call filters
id strictly greater than id51, so it returns no rows at all instead of the
51st row.  The 51st row is silently unreachable through pagination. -/
theorem C4_code_behavior :
    (listRowsPage sampleRows 50 none).items.length = 50 ∧
    (listRowsPage sampleRows 50 none).items.getLast? =
      some { id := "id50", position := 49 } ∧
    (listRowsPage sampleRows 50 none).nextCursor = some "id51" ∧
    listRowsPage sampleRows 50 (some "id51") = { items := [], nextCursor := none } := by
  decide

/-! ### Claim C9 -/

/-- Claim C9: the provisioning tableRouter.create returns the new table
together with exactly three columns — Name:TEXT, Age:NUMBER, Email:TEXT at
positions 0, 1, 2 — and exactly three rows at positions 0, 1, 2, each
holding exactly one cell per column, for every choice of generated ids and
faker contents; the whole skeleton is built by the single transaction
embodied by this one pure function. -/
theorem C9_create_table (name baseId newTableId : String)
    (colIds rowIds : Nat → String) (fake : Nat → Nat → String) :
    (tableRouterCreate name baseId newTableId colIds rowIds fake).columns.map Column.name =
      ["Name", "Age", "Email"] ∧
    (tableRouterCreate name baseId newTableId colIds rowIds fake).columns.map Column.type =
      [ColumnType.TEXT, ColumnType.NUMBER, ColumnType.TEXT] ∧
    (tableRouterCreate name baseId newTableId colIds rowIds fake).columns.map Column.position =
      [0, 1, 2] ∧
    (tableRouterCreate name baseId newTableId colIds rowIds fake).rows.map
      RowWithCells.position = [0, 1, 2] ∧
    (tableRouterCreate name baseId newTableId colIds rowIds fake).rows.map
      (fun r => r.cells.length) = [3, 3, 3] ∧
    (tableRouterCreate name baseId newTableId colIds rowIds fake).rows.map
      (fun r => r.cells.map Cell.columnId) =
      [(tableRouterCreate name baseId newTableId colIds rowIds fake).columns.map Column.id,
       (tableRouterCreate name baseId newTableId colIds rowIds fake).columns.map Column.id,
       (tableRouterCreate name baseId newTableId colIds rowIds fake).columns.map Column.id] ∧
    (tableRouterCreate name baseId newTableId colIds rowIds fake).table =
      { id := newTableId, name := name, baseId := baseId } :=
  ⟨rfl, rfl, rfl, rfl, rfl, rfl, rfl⟩

/-! ### Claim C10 -/

/-- Claim C10: a blank (empty or whitespace-only) cell value of a temp row
is never dispatched to the server — the post-confirmation flush of
accumulated temp values only emits writes with a non-empty trim, and an
edit of a temp row with a blank value is stored only in the local temp
value map with no network call. -/
theorem C10_blank_temp_values_local_only (st : ClientState) (cols : List Column)
    (tempRowId realRowId rowId columnId value : String) (now : Int) (col : Column)
    (hcol : cols.find? (fun c => decide (c.id = columnId)) = some col)
    (hval : getValidationError value col.type = none)
    (htemp : strStartsWith rowId "temp-row-" = true)
    (hblank : jsTrim value = "") :
    (∀ w ∈ (createRowOnSuccess st tempRowId realRowId).2, jsTrim w.value ≠ "") ∧
    (handleCellUpdate cols st rowId columnId value now).2 = [] ∧
    lookup2 (handleCellUpdate cols st rowId columnId value now).1.tempCellValues
      rowId columnId = some value := by
  refine ⟨?_, ?_, ?_⟩
  · intro w hw
    simp only [createRowOnSuccess, createRowFlushWrites] at hw
    cases hm : lookupA st.tempCellValues tempRowId with
    | none => rw [hm] at hw; simp at hw
    | some vals =>
      rw [hm] at hw
      obtain ⟨p, _, hp⟩ := List.mem_filterMap.mp hw
      by_cases ht : jsTrim p.2 ≠ ""
      · rw [if_pos ht] at hp
        cases hp
        exact ht
      · rw [if_neg ht] at hp
        exact absurd hp (by simp)
  · exact (handleCellUpdate_temp_blank cols st rowId columnId value now col
      hcol hval htemp hblank).1
  · exact (handleCellUpdate_temp_blank cols st rowId columnId value now col
      hcol hval htemp hblank).2

/-- Witness of claim C10: blanking cell c1 of the temp row temp-row-1
dispatches nothing and stores the blank locally. -/
theorem C10_witness :
    (∀ w ∈ (createRowOnSuccess demoState0 "temp-row-1" "R").2, jsTrim w.value ≠ "") ∧
    (handleCellUpdate [demoColumn] demoState0 "temp-row-1" "c1" "" 100).2 = [] ∧
    lookup2 (handleCellUpdate [demoColumn] demoState0 "temp-row-1" "c1" "" 100).1.tempCellValues
      "temp-row-1" "c1" = some "" :=
  C10_blank_temp_values_local_only demoState0 [demoColumn] "temp-row-1" "R" "temp-row-1"
    "c1" "" 100 demoColumn (by decide) (by decide) (by decide) (by decide)

/-! ### Claim C8 -/

/-- Claim C8 counterexample: a state whose only temp row is unmapped (a
failed or unresolved createRow), inactive well past the threshold.  The
reaper tick returns the state itself — the tick at 40000 is the identity
on it, and so is the next tick at 80000 — so repeated ticks never empty
the registry: its tempCellValues entry survives every sweep, refuting the
unconditional claim that when the user stops interacting repeated ticks
eventually empty both the registry and the ledger. -/
theorem C8_counterexample :
    demoUnmappedState.tempCellValues ≠ [] ∧
    30000 < 40000 - demoUnmappedState.lastLocalChange ∧
    reapTick demoUnmappedState 40000 = demoUnmappedState ∧
    reapTick (reapTick demoUnmappedState 40000) 80000 = demoUnmappedState := by
  decide

/-- Claim C8 amended: on a reaper tick with no local edit within the 30 s
threshold, the whole temp-to-real mapping is cleared and every mapped temp
row loses its value-map entry — but only mapped temp rows are swept: an
unmapped temp row survives the tick with its value map intact.  On every
tick each ledger entry older than the threshold is dropped.  Consequently
the ledger and the mapping converge, but the registry empties only when
every temp row is mapped: in that case one inactive tick with all ledger
entries stale empties registry and ledger. -/
theorem C8_amended (st : ClientState) (now : Int)
    (h : 30000 < now - st.lastLocalChange) :
    (reapTick st now).tempToRealMapping = [] ∧
    (∀ p ∈ (reapTick st now).tempCellValues, lookupA st.tempToRealMapping p.1 = none) ∧
    (∀ p ∈ st.tempCellValues, lookupA st.tempToRealMapping p.1 = none →
      p ∈ (reapTick st now).tempCellValues) ∧
    (∀ p ∈ (reapTick st now).pendingChanges, ∀ q ∈ p.2, now - q.2.timestamp ≤ 30000) ∧
    ((∀ p ∈ st.tempCellValues, (lookupA st.tempToRealMapping p.1).isSome = true) →
      (∀ p ∈ st.pendingChanges, ∀ q ∈ p.2, 30000 < now - q.2.timestamp) →
      (reapTick st now).tempCellValues = [] ∧ (reapTick st now).pendingChanges = []) := by
  have hreg : reapRegistry st now =
      { st with
        tempCellValues :=
          st.tempCellValues.filter (fun p => (lookupA st.tempToRealMapping p.1).isNone),
        tempToRealMapping := [] } := by
    rw [reapRegistry, if_pos h]
  refine ⟨?_, ?_, ?_, ?_, ?_⟩
  · rw [reapTick, hreg, reapLedger]
  · intro p hp
    rw [reapTick, hreg, reapLedger] at hp
    simp only at hp
    have := (List.mem_filter.mp hp).2
    simpa [Option.isNone_iff_eq_none] using this
  · intro p hp hnone
    rw [reapTick, hreg, reapLedger]
    simp only
    exact List.mem_filter.mpr ⟨hp, by simp [hnone]⟩
  · intro p hp q hq
    rw [reapTick, hreg, reapLedger] at hp
    simp only at hp
    have hp2 := (List.mem_filter.mp hp).1
    obtain ⟨p0, _, hp0⟩ := List.mem_map.mp hp2
    rw [← hp0] at hq
    simp only at hq
    have := (List.mem_filter.mp hq).2
    simpa using this
  · intro hall hstale
    constructor
    · rw [reapTick, hreg, reapLedger]
      simp only
      rw [List.filter_eq_nil_iff]
      intro p hp
      have hs := hall p hp
      simp only [Option.isNone_iff_eq_none]
      intro hn
      rw [hn] at hs
      simp at hs
    · rw [reapTick, hreg, reapLedger]
      simp only
      rw [List.filter_eq_nil_iff]
      intro p hp
      obtain ⟨p0, hp0m, hp0⟩ := List.mem_map.mp hp
      have hinner : p0.2.filter (fun q => decide (now - q.2.timestamp ≤ 30000)) = [] := by
        rw [List.filter_eq_nil_iff]
        intro q hq
        have := hstale p0 hp0m q hq
        simp only [decide_eq_true_eq]
        omega
      rw [← hp0]
      show ¬ (decide ((p0.2.filter (fun q => decide (now - q.2.timestamp ≤ 30000))) ≠ []) = true)
      rw [hinner]
      simp

/-- Witness of the amended claim C8: a state with one mapped and one
unmapped temp row plus a stale ledger entry, swept 40 s after the last
local edit. -/
theorem C8_amended_witness :
    (reapTick demoMixedState 40000).tempToRealMapping = [] ∧
    (∀ p ∈ (reapTick demoMixedState 40000).tempCellValues,
      lookupA demoMixedState.tempToRealMapping p.1 = none) ∧
    (∀ p ∈ demoMixedState.tempCellValues,
      lookupA demoMixedState.tempToRealMapping p.1 = none →
      p ∈ (reapTick demoMixedState 40000).tempCellValues) ∧
    (∀ p ∈ (reapTick demoMixedState 40000).pendingChanges, ∀ q ∈ p.2,
      (40000 : Int) - q.2.timestamp ≤ 30000) ∧
    ((∀ p ∈ demoMixedState.tempCellValues,
        (lookupA demoMixedState.tempToRealMapping p.1).isSome = true) →
      (∀ p ∈ demoMixedState.pendingChanges, ∀ q ∈ p.2,
        (30000 : Int) < 40000 - q.2.timestamp) →
      (reapTick demoMixedState 40000).tempCellValues = [] ∧
      (reapTick demoMixedState 40000).pendingChanges = []) :=
  C8_amended demoMixedState 40000 (by decide)

/-! ### Claim C3 -/

/-- Claim C3: a confirmed server row not owned by a temp identity is
materialized (it appears in the smartDataSelect output as its
ledger-merged form), and for each of its cells the merged cell keeps the
column and shows the pending ledger value when an entry exists for
(rowId, columnId), the untouched server value otherwise. -/
theorem C3_pending_precedence (serverData : List RowWithCells)
    (tcv : List (String × List (String × String)))
    (pending : List (String × List (String × PendingEntry)))
    (mapping : List (String × String)) (tableId : String) (columns : List Column)
    (row : RowWithCells)
    (hrow : row ∈ serverData)
    (hkeep : keepServerRow mapping tcv row = true) :
    applyPendingRow pending row ∈ smartDataSelect serverData tcv pending mapping tableId columns ∧
    ∀ cell ∈ row.cells, ∃ cell2 ∈ (applyPendingRow pending row).cells,
      cell2.columnId = cell.columnId ∧ cell2.id = cell.id ∧
      cell2.value =
        ((lookup2 pending row.id cell.columnId).map PendingEntry.value).getD cell.value := by
  constructor
  · apply (smartDataSelect_perm serverData tcv pending mapping tableId columns).mem_iff.mpr
    apply List.mem_append_left
    exact List.mem_map_of_mem _ (List.mem_filter.mpr ⟨hrow, hkeep⟩)
  · intro cell hc
    cases hlp : lookupA pending row.id with
    | none =>
      refine ⟨cell, ?_, rfl, rfl, ?_⟩
      · simp only [applyPendingRow, hlp]
        exact hc
      · simp [lookup2, hlp]
    | some rpc =>
      refine ⟨overridePendingCell rpc cell, ?_, ?_, ?_, ?_⟩
      · simp only [applyPendingRow, hlp]
        exact List.mem_map_of_mem _ hc
      · unfold overridePendingCell
        cases lookupA rpc cell.columnId <;> simp
      · unfold overridePendingCell
        cases lookupA rpc cell.columnId <;> simp
      · unfold overridePendingCell
        cases hcc : lookupA rpc cell.columnId with
        | none => simp [lookup2, hlp, hcc]
        | some pc => simp [lookup2, hlp, hcc]

/-- Witness of claim C3: server value A for (r1, c1) with a pending
ledger entry B — the merged row is in the materialized view and shows B. -/
theorem C3_witness :
    applyPendingRow [("r1", [("c1", { value := "B", timestamp := 100 })])] demoRowA ∈
      smartDataSelect [demoRowA] [] [("r1", [("c1", { value := "B", timestamp := 100 })])]
        [] "t1" [demoColumn] ∧
    ∀ cell ∈ demoRowA.cells,
      ∃ cell2 ∈ (applyPendingRow [("r1", [("c1", { value := "B", timestamp := 100 })])]
          demoRowA).cells,
        cell2.columnId = cell.columnId ∧ cell2.id = cell.id ∧
        cell2.value =
          ((lookup2 [("r1", [("c1", { value := "B", timestamp := 100 })])] demoRowA.id
              cell.columnId).map PendingEntry.value).getD cell.value :=
  C3_pending_precedence [demoRowA] [] [("r1", [("c1", { value := "B", timestamp := 100 })])]
    [] "t1" [demoColumn] demoRowA (by decide) (by decide)

/-! ### Claim C2 -/

theorem countP_id_mergedServer_zero (serverData : List RowWithCells)
    (mapping : List (String × String)) (tcv : List (String × List (String × String)))
    (pending : List (String × List (String × PendingEntry))) (s : String)
    (h : ∀ r ∈ filteredServer serverData mapping tcv, r.id ≠ s) :
    (mergedServer serverData mapping tcv pending).countP (fun r => decide (r.id = s)) = 0 := by
  rw [List.countP_eq_zero]
  intro r hr
  obtain ⟨r0, hr0, hmap⟩ := List.mem_map.mp hr
  rw [← hmap]
  simp [applyPendingRow_id, h r0 hr0]

theorem countP_id_tempRows (serverData : List RowWithCells)
    (tcv : List (String × List (String × String)))
    (mapping : List (String × String)) (tableId : String) (columns : List Column)
    (s : String) :
    (tempRowsOf serverData tcv mapping tableId columns).countP
        (fun r => decide (r.id = s)) =
      (tcv.map Prod.fst).countP (fun k => decide (k = s)) := by
  unfold tempRowsOf
  rw [List.countP_map]
  congr 1
  funext k
  simp [Function.comp, tempRowOf_id]

/-- Claim C2: for a temp row t mapped to the confirmed row R while t still
has a temp value map, the materialized view drops R, shows exactly one row
under the temp identity t, and that row is R's clone whose every cell
value comes from the temp value map (empty when the column is absent),
taking precedence over R's server-supplied values. -/
theorem C2_temp_row_precedence (serverData : List RowWithCells)
    (tcv : List (String × List (String × String)))
    (pending : List (String × List (String × PendingEntry)))
    (mapping : List (String × String)) (tableId : String) (columns : List Column)
    (t R : String) (vals : List (String × String)) (realRow : RowWithCells)
    (hvals : lookupA tcv t = some vals)
    (hkeys : (tcv.map Prod.fst).Nodup)
    (hmap : lookupA mapping t = some R)
    (hfirst : mapping.find? (fun q => decide (q.2 = R)) = some (t, R))
    (hreal : serverData.find? (fun r => decide (r.id = R)) = some realRow)
    (hsrvt : ∀ r ∈ serverData, r.id ≠ t)
    (htempR : ∀ q ∈ tcv, q.1 ≠ R) :
    (smartDataSelect serverData tcv pending mapping tableId columns).countP
      (fun r => decide (r.id = R)) = 0 ∧
    (smartDataSelect serverData tcv pending mapping tableId columns).countP
      (fun r => decide (r.id = t)) = 1 ∧
    ∀ row ∈ smartDataSelect serverData tcv pending mapping tableId columns, row.id = t →
      row.position = realRow.position ∧
      row.cells.map Cell.columnId = realRow.cells.map Cell.columnId ∧
      ∀ cell ∈ row.cells, cell.value = (lookupA vals cell.columnId).getD "" := by
  have hperm := smartDataSelect_perm serverData tcv pending mapping tableId columns
  have htkeys : t ∈ tcv.map Prod.fst := lookupA_mem_keys tcv t vals hvals
  refine ⟨?_, ?_, ?_⟩
  · rw [hperm.countP_eq, List.countP_append]
    have h1 : (mergedServer serverData mapping tcv pending).countP
        (fun r => decide (r.id = R)) = 0 := by
      apply countP_id_mergedServer_zero
      intro r hr
      have hkeep := (List.mem_filter.mp hr).2
      by_cases hid : r.id = R
      · exfalso
        unfold keepServerRow at hkeep
        rw [hid, hfirst] at hkeep
        simp only at hkeep
        rw [hvals] at hkeep
        simp at hkeep
      · exact hid
    have h2 : (tempRowsOf serverData tcv mapping tableId columns).countP
        (fun r => decide (r.id = R)) = 0 := by
      rw [countP_id_tempRows, List.countP_eq_zero]
      intro k hk
      obtain ⟨q, hq, hqk⟩ := List.mem_map.mp hk
      simpa [← hqk] using htempR q hq
    omega
  · rw [hperm.countP_eq, List.countP_append]
    have h1 : (mergedServer serverData mapping tcv pending).countP
        (fun r => decide (r.id = t)) = 0 := by
      apply countP_id_mergedServer_zero
      intro r hr
      have hrs : r ∈ serverData := List.mem_of_mem_filter hr
      exact hsrvt r hrs
    have h2 : (tempRowsOf serverData tcv mapping tableId columns).countP
        (fun r => decide (r.id = t)) = 1 := by
      rw [countP_id_tempRows]
      exact countP_eq_one_of_nodup_mem _ t hkeys htkeys
    omega
  · intro row hrow hid
    rcases List.mem_append.mp (hperm.mem_iff.mp hrow) with hm | hm
    · exfalso
      obtain ⟨r0, hr0, hmap0⟩ := List.mem_map.mp hm
      have hr0s : r0 ∈ serverData := List.mem_of_mem_filter hr0
      apply hsrvt r0 hr0s
      rw [← hid, ← hmap0, applyPendingRow_id]
    · obtain ⟨k, hk, hko⟩ := List.mem_map.mp hm
      have hkt : k = t := by
        rw [← hid, ← hko, tempRowOf_id]
      subst hkt
      have hrow_eq : row =
          { realRow with id := k, cells := realRow.cells.map (cloneCellFromReal tcv k) } := by
        rw [← hko]
        unfold tempRowOf
        rw [hmap]
        simp only
        rw [hreal]
      rw [hrow_eq]
      refine ⟨rfl, ?_, ?_⟩
      · rw [List.map_map]
        rfl
      · intro cell hc
        simp only [List.mem_map] at hc
        obtain ⟨c0, _, hc0⟩ := hc
        rw [← hc0]
        unfold cloneCellFromReal
        simp [hvals]

/-- A server row R holding the value Y, reconciled target of a confirmed
temp row. -/
def demoRowR : RowWithCells :=
  { id := "R", tableId := "t1", position := 0,
    cells := [{ id := "cellR", rowId := "R", columnId := "c1", value := "Y" }] }

/-- Witness of claim C2: temp row temp-row-1 mapped to R with temp value X
for column c1, while the server supplies Y — the view shows one row, under
the temp identity, with X. -/
theorem C2_witness :
    (smartDataSelect [demoRowR] [("temp-row-1", [("c1", "X")])] [] [("temp-row-1", "R")]
      "t1" [demoColumn]).countP (fun r => decide (r.id = "R")) = 0 ∧
    (smartDataSelect [demoRowR] [("temp-row-1", [("c1", "X")])] [] [("temp-row-1", "R")]
      "t1" [demoColumn]).countP (fun r => decide (r.id = "temp-row-1")) = 1 ∧
    ∀ row ∈ smartDataSelect [demoRowR] [("temp-row-1", [("c1", "X")])] [] [("temp-row-1", "R")]
        "t1" [demoColumn], row.id = "temp-row-1" →
      row.position = demoRowR.position ∧
      row.cells.map Cell.columnId = demoRowR.cells.map Cell.columnId ∧
      ∀ cell ∈ row.cells, cell.value = (lookupA [("c1", "X")] cell.columnId).getD "" :=
  C2_temp_row_precedence [demoRowR] [("temp-row-1", [("c1", "X")])] [] [("temp-row-1", "R")]
    "t1" [demoColumn] "temp-row-1" "R" [("c1", "X")] demoRowR
    (by decide) (by decide) (by decide) (by decide) (by decide) (by decide) (by decide)

/-! ### Claim C7 -/

/-- A confirmed server row whose position 1000 exceeds the hardcoded
synthetic temp position 999. -/
def demoRowFar : RowWithCells :=
  { id := "R", tableId := "t1", position := 1000,
    cells := [{ id := "cellR", rowId := "R", columnId := "c1", value := "Y" }] }

/-- Claim C7 counterexample: the synthetic position of an unmapped temp
row is the hardcoded constant 999, not a value strictly greater than every
real position — with a confirmed row at position 1000 the temp row sorts
strictly before it and renders first, not last. -/
theorem C7_counterexample :
    (syntheticTempRow [("temp-row-1", [])] "t1" [demoColumn] "temp-row-1").position <
      demoRowFar.position ∧
    (smartDataSelect [demoRowFar] [("temp-row-1", [])] [] [] "t1" [demoColumn]).map
      (fun r => r.id) = ["temp-row-1", "R"] := by
  decide

/-- Claim C7 amended: an unmapped temp row is materialized with the fixed
synthetic position 999; whenever every confirmed row position is at most
998 (as with fewer than 1000 rows, positions being assigned 0, 1, 2, ...),
that is strictly greater than every real position and the ascending
position sort places the temp row after every row with a smaller
position — in particular after all confirmed rows. -/
theorem C7_amended (serverData : List RowWithCells)
    (tcv : List (String × List (String × String)))
    (pending : List (String × List (String × PendingEntry)))
    (mapping : List (String × String)) (tableId : String) (columns : List Column)
    (t : String)
    (hkey : t ∈ tcv.map Prod.fst)
    (hunmapped : lookupA mapping t = none)
    (hpos : ∀ r ∈ serverData, r.position ≤ 998)
    (hsrvt : ∀ r ∈ serverData, r.id ≠ t) :
    (∃ row ∈ smartDataSelect serverData tcv pending mapping tableId columns,
      row.id = t ∧ row.position = 999 ∧
      ∀ r ∈ serverData, r.position < row.position) ∧
    ∀ (i j : Fin (smartDataSelect serverData tcv pending mapping tableId columns).length),
      ((smartDataSelect serverData tcv pending mapping tableId columns).get i).id = t →
      ((smartDataSelect serverData tcv pending mapping tableId columns).get j).position < 999 →
      j < i := by
  have hperm := smartDataSelect_perm serverData tcv pending mapping tableId columns
  have hsorted := smartDataSelect_sorted serverData tcv pending mapping tableId columns
  have hpos999 : ∀ row ∈ smartDataSelect serverData tcv pending mapping tableId columns,
      row.id = t → row.position = 999 := by
    intro row hrow hid
    rcases List.mem_append.mp (hperm.mem_iff.mp hrow) with hm | hm
    · exfalso
      obtain ⟨r0, hr0, hmap0⟩ := List.mem_map.mp hm
      exact hsrvt r0 (List.mem_of_mem_filter hr0) (by rw [← hid, ← hmap0, applyPendingRow_id])
    · obtain ⟨k, hk, hko⟩ := List.mem_map.mp hm
      have hkt : k = t := by rw [← hid, ← hko, tempRowOf_id]
      subst hkt
      rw [← hko]
      unfold tempRowOf
      rw [hunmapped]
      rfl
  constructor
  · refine ⟨tempRowOf serverData tcv mapping tableId columns t, ?_,
      tempRowOf_id serverData tcv mapping tableId columns t, ?_, ?_⟩
    · apply hperm.mem_iff.mpr
      apply List.mem_append_right
      exact List.mem_map_of_mem _ hkey
    · unfold tempRowOf
      rw [hunmapped]
      rfl
    · intro r hr
      have h999 : (tempRowOf serverData tcv mapping tableId columns t).position = 999 := by
        unfold tempRowOf
        rw [hunmapped]
        rfl
      rw [h999]
      have := hpos r hr
      omega
  · intro i j hit hjp
    have hipos :
        ((smartDataSelect serverData tcv pending mapping tableId columns).get i).position =
          999 :=
      hpos999 _ (List.get_mem _ i.1 i.2) hit
    rcases lt_trichotomy i j with hij | hij | hij
    · exfalso
      have hle : ((smartDataSelect serverData tcv pending mapping tableId columns).get
          i).position ≤
          ((smartDataSelect serverData tcv pending mapping tableId columns).get j).position :=
        List.Sorted.rel_get_of_lt hsorted hij
      omega
    · exfalso
      subst hij
      omega
    · exact hij

/-- Witness of the amended claim C7: one confirmed row at position 0 and
one unmapped temp row — the temp row materializes at position 999 and sits
after the confirmed row. -/
theorem C7_amended_witness :
    (∃ row ∈ smartDataSelect [demoRowA] [("temp-row-1", [("c1", "X")])] [] [] "t1" [demoColumn],
      row.id = "temp-row-1" ∧ row.position = 999 ∧
      ∀ r ∈ [demoRowA], r.position < row.position) ∧
    ∀ (i j : Fin (smartDataSelect [demoRowA] [("temp-row-1", [("c1", "X")])] [] [] "t1"
        [demoColumn]).length),
      ((smartDataSelect [demoRowA] [("temp-row-1", [("c1", "X")])] [] [] "t1"
        [demoColumn]).get i).id = "temp-row-1" →
      ((smartDataSelect [demoRowA] [("temp-row-1", [("c1", "X")])] [] [] "t1"
        [demoColumn]).get j).position < 999 →
      j < i :=
  C7_amended [demoRowA] [("temp-row-1", [("c1", "X")])] [] [] "t1" [demoColumn] "temp-row-1"
    (by decide) (by decide) (by decide) (by decide)

end Airtable
